import Mathlib

/-!
Verification of the `web_client` command-line HTTP client (src/main.rs).

The development shallowly embeds the request-construction, dispatch and
response-formatting pipeline of `main.rs`:

* `Args` mirrors the clap-derived `Args` struct;
* `effectiveMethod` mirrors the method resolution at lines 76-80;
* `formMap` mirrors the form-body construction at lines 104-114;
* `send_request` / `afterDispatch` mirror `send_request` (lines 74-135);
* `handle_response` mirrors `handle_response` (lines 139-168);
* `mainRun` mirrors `main` (lines 24-55).

External collaborators (the `url` parser, the `reqwest` transport, and the
`serde_json` parser applied to the response body) are modelled as oracle
inputs collected in `Env`; their *results* drive the pipeline exactly as in
the source.  `serde_json::Value` is modelled by `Json` (numbers restricted to
integers; floating-point literals are irrelevant to the properties proved
here), and `serde_json::to_string_pretty` by `Json.toStringPretty`.  A
`Value` produced by `serde_json::from_str` stores every object in a
`BTreeMap`, i.e. with byte-lexicographically sorted keys and last-wins
duplicate handling; `Json.sortKeysDeep` is that canonicalisation.
-/

mutual

/-- Model of `serde_json::Value`.  Arrays and objects use the mutual list
types below (isomorphic to `List Json` and `List (String × Json)`);
`serde_json`'s `Map` (a `BTreeMap` by default) corresponds to member lists
in strictly sorted key order (`Json.sortedObjsB`). -/
inductive Json where
  | null : Json
  | bool (b : Bool) : Json
  | num (n : Int) : Json
  | str (s : String) : Json
  | arr (elems : JsonList) : Json
  | obj (members : JsonMembers) : Json

/-- A list of JSON array elements. -/
inductive JsonList where
  | nil : JsonList
  | cons (head : Json) (tail : JsonList) : JsonList

/-- A list of JSON object members (key/value pairs). -/
inductive JsonMembers where
  | nil : JsonMembers
  | cons (key : String) (val : Json) (tail : JsonMembers) : JsonMembers

end

/-- Byte-lexicographic order on characters via code points; for valid UTF-8
this coincides with Rust's byte-wise `Ord` on `String`. -/
def charLt (c d : Char) : Bool := decide (c.toNat < d.toNat)

/-- Lexicographic order on character lists. -/
def charsLt : List Char → List Char → Bool
  | [], [] => false
  | [], _ :: _ => true
  | _ :: _, [] => false
  | c :: cs, d :: ds => if c = d then charsLt cs ds else charLt c d

/-- Rust `String` ordering (`Ord`), the order used by `BTreeMap<String, _>`. -/
def strLt (a b : String) : Bool := charsLt a.data b.data

/-- Model of `BTreeMap::insert`: place `(k, v)` into a key-sorted member
list, replacing the value if the key is already present. -/
def insertSorted (k : String) (v : Json) : JsonMembers → JsonMembers
  | .nil => .cons k v .nil
  | .cons k1 v1 rest =>
    if strLt k k1 then .cons k v (.cons k1 v1 rest)
    else if k = k1 then .cons k v rest
    else .cons k1 v1 (insertSorted k v rest)

mutual

/-- Canonicalisation performed by `serde_json::from_str::<Value>`: every
object in the tree is rebuilt as a `BTreeMap`, i.e. keys sorted and the last
of duplicate keys winning. -/
def Json.sortKeysDeep : Json → Json
  | .null => .null
  | .bool b => .bool b
  | .num n => .num n
  | .str s => .str s
  | .arr es => .arr (Json.sortArrDeep es)
  | .obj ms => .obj (Json.sortMembersAux .nil ms)

/-- `Json.sortKeysDeep` mapped over array elements. -/
def Json.sortArrDeep : JsonList → JsonList
  | .nil => .nil
  | .cons e es => .cons (Json.sortKeysDeep e) (Json.sortArrDeep es)

/-- Build a sorted member list by inserting members left to right (the order
in which a JSON parser encounters them), so later duplicates replace earlier
ones. -/
def Json.sortMembersAux : JsonMembers → JsonMembers → JsonMembers
  | acc, .nil => acc
  | acc, .cons k v rest => Json.sortMembersAux (insertSorted k (Json.sortKeysDeep v) acc) rest

end

/-- Is `k0` strictly below the first key of `ms` (vacuously true for the
empty member list)? -/
def keyLB (k0 : String) : JsonMembers → Bool
  | .nil => true
  | .cons k1 _ _ => strLt k0 k1

/-- Adjacent keys strictly increase: the member list is in sorted key order. -/
def keysSortedB : JsonMembers → Bool
  | .nil => true
  | .cons k1 _ ms => keyLB k1 ms && keysSortedB ms

mutual

/-- Every object in the tree has its keys in strictly sorted order. -/
def Json.sortedObjsB : Json → Bool
  | .null => true
  | .bool _ => true
  | .num _ => true
  | .str _ => true
  | .arr es => Json.sortedListB es
  | .obj ms => keysSortedB ms && Json.sortedMembersB ms

/-- `Json.sortedObjsB` over array elements. -/
def Json.sortedListB : JsonList → Bool
  | .nil => true
  | .cons e es => Json.sortedObjsB e && Json.sortedListB es

/-- `Json.sortedObjsB` over member values. -/
def Json.sortedMembersB : JsonMembers → Bool
  | .nil => true
  | .cons _ v ms => Json.sortedObjsB v && Json.sortedMembersB ms

end

/-- One lowercase hex digit, as emitted by `serde_json` for control
characters. -/
def hexDigit (n : Nat) : String :=
  String.singleton (if n < 10 then Char.ofNat (48 + n) else Char.ofNat (87 + n))

/-- JSON string escaping as performed by `serde_json`'s serializer. -/
def escChar (c : Char) : String :=
  if c = '"' then "\\\""
  else if c = '\\' then "\\\\"
  else if c = Char.ofNat 8 then "\\b"
  else if c = Char.ofNat 12 then "\\f"
  else if c = '\n' then "\\n"
  else if c = '\r' then "\\r"
  else if c = '\t' then "\\t"
  else if c.toNat < 32 then "\\u00" ++ hexDigit (c.toNat / 16) ++ hexDigit (c.toNat % 16)
  else String.singleton c

/-- Escape every character of a character list. -/
def escChars : List Char → String
  | [] => ""
  | c :: cs => escChar c ++ escChars cs

/-- Serialize a JSON string literal, quotes included. -/
def quoteStr (s : String) : String :=
  "\"" ++ escChars s.data ++ "\""

/-- `n` spaces. -/
def spaces : Nat → String
  | 0 => ""
  | n + 1 => " " ++ spaces n

mutual

/-- `serde_json::to_string_pretty` rendering of a value whose own
indentation level is `ind` (the pretty formatter uses two-space
indentation). -/
def Json.render (ind : Nat) : Json → String
  | .null => "null"
  | .bool true => "true"
  | .bool false => "false"
  | .num n => toString n
  | .str s => quoteStr s
  | .arr .nil => "[]"
  | .arr (.cons e es) =>
      "[\n" ++ Json.renderList (ind + 2) (.cons e es) ++ "\n" ++ spaces ind ++ "]"
  | .obj .nil => "\x7b\x7d"
  | .obj (.cons k v ms) =>
      "\x7b\n" ++ Json.renderMembers (ind + 2) (.cons k v ms) ++ "\n" ++ spaces ind ++ "\x7d"

/-- Comma-and-newline separated array elements, each indented by `ind`. -/
def Json.renderList (ind : Nat) : JsonList → String
  | .nil => ""
  | .cons e .nil => spaces ind ++ Json.render ind e
  | .cons e (.cons e2 es) =>
      spaces ind ++ Json.render ind e ++ ",\n" ++ Json.renderList ind (.cons e2 es)

/-- Comma-and-newline separated `"key": value` members, each indented by
`ind`. -/
def Json.renderMembers (ind : Nat) : JsonMembers → String
  | .nil => ""
  | .cons k v .nil => spaces ind ++ quoteStr k ++ ": " ++ Json.render ind v
  | .cons k v (.cons k2 v2 ms) =>
      spaces ind ++ quoteStr k ++ ": " ++ Json.render ind v ++ ",\n" ++
        Json.renderMembers ind (.cons k2 v2 ms)

end

/-- `serde_json::to_string_pretty` of a whole value (top level indents from
zero).  For a `Value` this serializer never fails, so the `.unwrap()` at
line 150 of the source never panics. -/
def Json.toStringPretty (j : Json) : String := Json.render 0 j

/-- The clap-derived `Args` struct (lines 12-21): positional `url`, `-X`
method flag, `-d` data flag, `--json` flag. -/
structure Args where
  url : String
  method : String
  data : Option String
  json : Option String
deriving DecidableEq

/-- Clap populates `method` from the `-X` flag, with
`default_value_t = String::from("GET")` when the flag is absent (line 15). -/
def clapMethod (flag : Option String) : String := flag.getD "GET"

/-- Error categories of `url::ParseError` distinguished by
`handle_url_error` (lines 58-65). -/
inductive UrlParseErrorKind where
  | relativeUrlWithoutBase
  | invalidPort
  | invalidIpv4Address
  | invalidIpv6Address
  | other
deriving DecidableEq

/-- Transport failure classification used at lines 122-131:
`e.is_connect() || e.is_timeout()` versus everything else. -/
inductive TransportErrorKind where
  | connectOrTimeout
  | other
deriving DecidableEq

/-- The request handed to `reqwest` by `send_request`: a POST with a raw
JSON body and `Content-Type: application/json` (lines 87-92), a POST with a
url-encoded form (line 115), or a plain bodyless GET (line 118). -/
inductive Request where
  | postJson (url : String) (body : String)
  | postForm (url : String) (form : List (String × String))
  | get (url : String)
deriving DecidableEq

/-- Results of the external collaborators for one invocation: the `url`
crate's parse outcome, whether `serde_json::from_str` accepts the `--json`
string, the transport outcome of `send()` (error kind or HTTP status code),
the outcome of `response.text()`, and `serde_json::from_str` applied to the
body text (`some` holds the parsed `Value`, whose objects are key-sorted
`BTreeMap`s). -/
structure Env where
  urlParseError : Option UrlParseErrorKind
  jsonValid : Bool
  transport : Except TransportErrorKind Nat
  bodyText : Except Unit String
  respJson : Option Json

/-- How the process terminates: `exit0` is a clean `Ok(())` return from
`main` (status 0); `errExit` is `main` returning `Err(e)` (Rust prints the
error and exits with a non-zero status); `panicked` is an abort via
`panic!`. -/
inductive Outcome where
  | exit0
  | errExit
  | panicked (msg : String)
deriving DecidableEq

/-- Observable result of one invocation: accumulated standard output and
standard error, the request handed to the transport (if any), and the
termination outcome. -/
structure RunResult where
  stdout : String
  stderr : String
  sent : Option Request
  outcome : Outcome
deriving DecidableEq

/-- Does `cs` start with the character sequence `ps`? -/
def listStartsWith : List Char → List Char → Bool
  | _, [] => true
  | [], _ :: _ => false
  | c :: cs, d :: ds => c = d && listStartsWith cs ds

/-- Rust `str::starts_with(&str)`. -/
def strStartsWith (s p : String) : Bool := listStartsWith s.data p.data

/-- One step of Rust `str::split(sep)`: accumulate the current piece
(`acc`, reversed) and start a new piece after each separator.  Adjacent,
leading and trailing separators yield empty pieces, and the empty string
yields one empty piece, exactly as in Rust. -/
def splitCharAux (sep : Char) : List Char → List Char → List String
  | [], acc => [String.mk acc.reverse]
  | c :: cs, acc =>
    if c = sep then String.mk acc.reverse :: splitCharAux sep cs []
    else splitCharAux sep cs (c :: acc)

/-- Rust `str::split(char)`. -/
def splitChar (sep : Char) (s : String) : List String := splitCharAux sep s.data []

/-- Split a character list at the first occurrence of `sep`: `none` when
`sep` does not occur, otherwise the part before and the part after (which
may contain further occurrences). -/
def breakAtFirst (sep : Char) : List Char → Option (List Char × List Char)
  | [] => none
  | c :: cs =>
    if c = sep then some ([], cs)
    else
      match breakAtFirst sep cs with
      | some (k, v) => some (c :: k, v)
      | none => none

/-- Split a form pair on the first `=` only, mirroring
`pair.splitn(2, '=')` with the `if let (Some(key), Some(value))` guard
(lines 109-112): `none` when the pair contains no `=` (such a pair is
dropped), otherwise the key and the remainder (which may itself contain
`=`). -/
def splitOnceEq (pair : String) : Option (String × String) :=
  match breakAtFirst '=' pair.data with
  | some (k, v) => some (String.mk k, String.mk v)
  | none => none

/-- `HashMap::insert` on the association-list model of
`HashMap<String, String>`: replace the value of an existing key, otherwise
append the binding. -/
def hashInsert (m : List (String × String)) (k v : String) : List (String × String) :=
  match m with
  | [] => [(k, v)]
  | (k1, v1) :: rest => if k1 = k then (k, v) :: rest else (k1, v1) :: hashInsert rest k v

/-- The form-body construction of lines 105-114: split the data string on
`&`, split each pair on the first `=`, silently drop pairs without `=`, and
insert into the map so that the last occurrence of a key wins. -/
def formMap (postData : String) : List (String × String) :=
  (splitChar '&' postData).foldl
    (fun m pair =>
      match splitOnceEq pair with
      | some (k, v) => hashInsert m k v
      | none => m)
    []

/-- The form data sent at line 115: built from `args.data` when present
(lines 106-114), otherwise the empty map. -/
def formData (data : Option String) : List (String × String) :=
  match data with
  | some postData => formMap postData
  | none => []

/-- The method resolution at lines 76-80: `POST` whenever `--json` was
supplied, otherwise the `-X` flag value exactly as typed. -/
def effectiveMethod (args : Args) : String :=
  if args.json.isSome then "POST" else args.method

/-- Does the URL pass the protocol check at line 28? -/
def validProtocol (url : String) : Bool :=
  strStartsWith url "http://" || strStartsWith url "https://"

/-- The `eprintln!` of `handle_url_error` (lines 58-70). -/
def handle_url_error (args : Args) (e : UrlParseErrorKind) : String :=
  let msg :=
    match e with
    | .relativeUrlWithoutBase => "The URL does not have a valid base protocol."
    | .invalidPort => "The URL contains an invalid port number."
    | .invalidIpv4Address => "The URL contains an invalid IPv4 address."
    | .invalidIpv6Address => "The URL contains an invalid IPv6 address."
    | .other => "Some error occurred while parsing the URL."
  "Requesting URL: " ++ args.url ++ "\nMethod: " ++ args.method ++ "\nError: " ++ msg ++ "\n"

/-- Result of `send_request` (lines 74-135): abort through the `panic!` at
line 100 (carrying the stderr text printed just before, and the panic
message), a transport error reported to stderr with `Err` returned to
`main` (lines 122-133), or a response with its status code. -/
inductive SendResult where
  | panicked (stderrOut : String) (panicMsg : String)
  | errReported (req : Request) (stderrOut : String)
  | ok (req : Request) (status : Nat)
deriving DecidableEq

/-- The transport-outcome handling at lines 120-134: on success return the
response; on failure print the connection-specific or generic diagnostic
(note: with `args.method`, the method string as typed) and return `Err`. -/
def afterDispatch (args : Args) (req : Request) (env : Env) : SendResult :=
  match env.transport with
  | .ok status => .ok req status
  | .error .connectOrTimeout =>
      .errReported req
        ("Requesting URL: " ++ args.url ++ "\nMethod: " ++ args.method ++
          "\nError: Unable to connect to the server. Perhaps the network is offline or the server hostname cannot be resolved.\n")
  | .error .other =>
      .errReported req
        ("Requesting URL: " ++ args.url ++ "\nMethod: " ++ args.method ++
          "\nError: An unexpected error occurred\n")

/-- `send_request` (lines 74-135): resolve the method; on `"POST"` with a
`--json` argument validate it (panic with the line 96-100 output when
`serde_json` rejects it) and send the raw JSON body; on `"POST"` without
`--json` send the form built from `-d`; on any other method string send a
plain GET. -/
def send_request (args : Args) (env : Env) : SendResult :=
  let method := effectiveMethod args
  if method = "POST" then
    match args.json with
    | some json_data =>
        if env.jsonValid then
          afterDispatch args (.postJson args.url json_data) env
        else
          .panicked
            ("Requesting URL: " ++ args.url ++ "\nMethod: POST\nJSON: " ++ json_data ++ "\n")
            ("Invalid JSON format: " ++ json_data)
    | none => afterDispatch args (.postForm args.url (formData args.data)) env
  else
    afterDispatch args (.get args.url) env

/-- `StatusCode::is_success`: the 2xx range. -/
def isSuccess (status : Nat) : Bool := decide (200 ≤ status) && decide (status < 300)

/-- `print_post_request_info` (lines 172-188): echo the JSON string when
`--json` was supplied, otherwise the `-d` string (empty when absent); the
method shown is `args.method` as typed. -/
def print_post_request_info (args : Args) : String :=
  match args.json with
  | some json_data =>
      "Requesting URL: " ++ args.url ++ "\nMethod: " ++ args.method ++
        "\nJSON: " ++ json_data ++ "\n"
  | none =>
      "Requesting URL: " ++ args.url ++ "\nMethod: " ++ args.method ++
        "\nData: " ++ args.data.getD "" ++ "\n"

/-- The request-metadata echo of lines 142-146: the POST echo exactly when
the *typed* method string equals `"POST"`, otherwise the plain URL/method
lines. -/
def responseMeta (args : Args) : String :=
  if args.method = "POST" then print_post_request_info args
  else "Requesting URL: " ++ args.url ++ "\nMethod: " ++ args.method ++ "\n"

/-- The body rendering of lines 148-157: when `serde_json::from_str`
parses the body, pretty-print the parsed value under the sorted-keys label;
otherwise print the raw body text under the plain label. -/
def renderBody (body : String) (respJson : Option Json) : String :=
  match respJson with
  | some json_body =>
      "Response body (JSON with sorted keys):\n" ++ json_body.toStringPretty ++ "\n"
  | none => "Response body:\n" ++ body ++ "\n"

/-- `handle_response` (lines 139-168).  On a 2xx status: read the body
(`response.text().await?` — a read failure propagates as `Err` before
anything is printed), echo the request metadata to stdout, then render the
body.  On any other status: print the error line with the literal numeric
status code to stderr.  Returns `Ok` with the (stdout, stderr) pair, or the
propagated body-read error. -/
def handle_response (args : Args) (status : Nat) (bodyText : Except Unit String)
    (respJson : Option Json) : Except Unit (String × String) :=
  if isSuccess status then
    match bodyText with
    | .error e => .error e
    | .ok body => .ok (responseMeta args ++ renderBody body respJson, "")
  else
    .ok ("",
      "Requesting URL: " ++ args.url ++ "\nMethod: " ++ args.method ++
        "\nError: Request failed with status code: " ++ toString status ++ "\n")

/-- `main` (lines 24-55): protocol check, URL parse, `send_request`,
`handle_response`.  Every early return is `Ok(())` (exit status 0); the
`?` at lines 52 and 141 turns a body-read failure into `main` returning
`Err` (non-zero exit); the invalid-JSON `panic!` aborts. -/
def mainRun (args : Args) (env : Env) : RunResult :=
  if validProtocol args.url then
    match env.urlParseError with
    | some e => ⟨"", handle_url_error args e, none, .exit0⟩
    | none =>
        match send_request args env with
        | .panicked errOut msg => ⟨"", errOut, none, .panicked msg⟩
        | .errReported req errOut => ⟨"", errOut, some req, .exit0⟩
        | .ok req status =>
            match handle_response args status env.bodyText env.respJson with
            | .error _ => ⟨"", "", some req, .errExit⟩
            | .ok (out, err) => ⟨out, err, some req, .exit0⟩
  else
    ⟨"",
      "Requesting URL: " ++ args.url ++ "\nMethod: " ++ args.method ++
        "\nError: The URL does not have a valid base protocol.\n",
      none, .exit0⟩

theorem charToNat_inj {c d : Char} (h : c.toNat = d.toNat) : c = d :=
  Char.ext (UInt32.ext h)

theorem charLt_total {c d : Char} (h1 : charLt c d = false) (h2 : c ≠ d) :
    charLt d c = true := by
  unfold charLt at h1 ⊢
  simp only [decide_eq_false_iff_not] at h1
  simp only [decide_eq_true_eq]
  have hne : c.toNat ≠ d.toNat := fun hn => h2 (charToNat_inj hn)
  omega

theorem charsLt_total : ∀ {xs ys : List Char}, charsLt xs ys = false → xs ≠ ys →
    charsLt ys xs = true
  | [], [], _, h2 => absurd rfl h2
  | [], _ :: _, h1, _ => by simp [charsLt] at h1
  | _ :: _, [], _, _ => by simp [charsLt]
  | c :: cs, d :: ds, h1, h2 => by
    unfold charsLt at h1 ⊢
    by_cases hcd : c = d
    · subst hcd
      simp only [if_pos rfl] at h1 ⊢
      have hne : cs ≠ ds := fun hn => h2 (by rw [hn])
      exact charsLt_total h1 hne
    · have hdc : d ≠ c := fun hn => hcd hn.symm
      rw [if_neg hcd] at h1
      rw [if_neg hdc]
      exact charLt_total h1 hcd

theorem strLt_total {a b : String} (h1 : strLt a b = false) (h2 : a ≠ b) :
    strLt b a = true := by
  unfold strLt at h1 ⊢
  have hne : a.data ≠ b.data := fun hn => h2 (String.toList_inj.mp hn)
  exact charsLt_total h1 hne

theorem keyLB_insertSorted (a k : String) (v : Json) (ms : JsonMembers)
    (h1 : keyLB a ms = true) (h2 : strLt a k = true) :
    keyLB a (insertSorted k v ms) = true := by
  cases ms with
  | nil => simpa [insertSorted, keyLB] using h2
  | cons k1 v1 rest =>
    unfold insertSorted
    by_cases hlt : strLt k k1 = true
    · rw [if_pos hlt]; simpa [keyLB] using h2
    · rw [if_neg hlt]
      by_cases heq : k = k1
      · rw [if_pos heq]; simpa [keyLB] using h2
      · rw [if_neg heq]; simpa [keyLB] using h1

theorem keysSortedB_insertSorted (k : String) (v : Json) :
    ∀ ms : JsonMembers, keysSortedB ms = true → keysSortedB (insertSorted k v ms) = true
  | .nil, _ => by simp [insertSorted, keysSortedB, keyLB]
  | .cons k1 v1 rest, h => by
    unfold keysSortedB at h
    rw [Bool.and_eq_true] at h
    obtain ⟨hlb, hrest⟩ := h
    unfold insertSorted
    by_cases hlt : strLt k k1 = true
    · rw [if_pos hlt]
      simp only [keysSortedB, keyLB, Bool.and_eq_true]
      exact ⟨hlt, hlb, hrest⟩
    · rw [if_neg hlt]
      by_cases heq : k = k1
      · rw [if_pos heq]
        subst heq
        simp only [keysSortedB, Bool.and_eq_true]
        exact ⟨hlb, hrest⟩
      · rw [if_neg heq]
        have hlt2 : strLt k k1 = false := by
          revert hlt; cases strLt k k1 <;> simp
        have hk1k : strLt k1 k = true := strLt_total hlt2 heq
        simp only [keysSortedB, Bool.and_eq_true]
        exact ⟨keyLB_insertSorted k1 k v rest hlb hk1k,
          keysSortedB_insertSorted k v rest hrest⟩

theorem sortedMembersB_insertSorted (k : String) (v : Json) (hv : v.sortedObjsB = true) :
    ∀ ms : JsonMembers, Json.sortedMembersB ms = true →
      Json.sortedMembersB (insertSorted k v ms) = true
  | .nil, _ => by simp [insertSorted, Json.sortedMembersB, hv]
  | .cons k1 v1 rest, h => by
    unfold Json.sortedMembersB at h
    rw [Bool.and_eq_true] at h
    obtain ⟨hv1, hrest⟩ := h
    unfold insertSorted
    by_cases hlt : strLt k k1 = true
    · rw [if_pos hlt]
      simp only [Json.sortedMembersB, Bool.and_eq_true]
      exact ⟨hv, hv1, hrest⟩
    · rw [if_neg hlt]
      by_cases heq : k = k1
      · rw [if_pos heq]
        simp only [Json.sortedMembersB, Bool.and_eq_true]
        exact ⟨hv, hrest⟩
      · rw [if_neg heq]
        simp only [Json.sortedMembersB, Bool.and_eq_true]
        exact ⟨hv1, sortedMembersB_insertSorted k v hv rest hrest⟩

mutual

theorem sortedObjsB_sortKeysDeep : ∀ j : Json, (Json.sortKeysDeep j).sortedObjsB = true
  | .null => rfl
  | .bool _ => rfl
  | .num _ => rfl
  | .str _ => rfl
  | .arr es => by
    simp only [Json.sortKeysDeep, Json.sortedObjsB]
    exact sortedListB_sortArrDeep es
  | .obj ms => by
    simp only [Json.sortKeysDeep, Json.sortedObjsB, Bool.and_eq_true]
    exact sortMembersAux_sorted ms .nil rfl rfl

theorem sortedListB_sortArrDeep : ∀ es : JsonList, Json.sortedListB (Json.sortArrDeep es) = true
  | .nil => rfl
  | .cons e es => by
    simp only [Json.sortArrDeep, Json.sortedListB, Bool.and_eq_true]
    exact ⟨sortedObjsB_sortKeysDeep e, sortedListB_sortArrDeep es⟩

theorem sortMembersAux_sorted : ∀ (ms acc : JsonMembers),
    keysSortedB acc = true → Json.sortedMembersB acc = true →
      keysSortedB (Json.sortMembersAux acc ms) = true ∧
        Json.sortedMembersB (Json.sortMembersAux acc ms) = true
  | .nil, _, hk, hm => ⟨hk, hm⟩
  | .cons k v rest, acc, hk, hm => by
    simp only [Json.sortMembersAux]
    exact sortMembersAux_sorted rest (insertSorted k (Json.sortKeysDeep v) acc)
      (keysSortedB_insertSorted k (Json.sortKeysDeep v) acc hk)
      (sortedMembersB_insertSorted k (Json.sortKeysDeep v)
        (sortedObjsB_sortKeysDeep v) acc hm)

end

theorem mainRun_invalidProtocol (args : Args) (env : Env)
    (h : validProtocol args.url = false) :
    mainRun args env =
      ⟨"",
        "Requesting URL: " ++ args.url ++ "\nMethod: " ++ args.method ++
          "\nError: The URL does not have a valid base protocol.\n",
        none, .exit0⟩ := by
  simp [mainRun, h]

theorem mainRun_urlError (args : Args) (env : Env) (e : UrlParseErrorKind)
    (h1 : validProtocol args.url = true) (h2 : env.urlParseError = some e) :
    mainRun args env = ⟨"", handle_url_error args e, none, .exit0⟩ := by
  simp [mainRun, h1, h2]

theorem mainRun_send (args : Args) (env : Env)
    (h1 : validProtocol args.url = true) (h2 : env.urlParseError = none) :
    mainRun args env =
      match send_request args env with
      | .panicked errOut msg => ⟨"", errOut, none, .panicked msg⟩
      | .errReported req errOut => ⟨"", errOut, some req, .exit0⟩
      | .ok req status =>
          match handle_response args status env.bodyText env.respJson with
          | .error _ => ⟨"", "", some req, .errExit⟩
          | .ok (out, err) => ⟨out, err, some req, .exit0⟩ := by
  simp [mainRun, h1, h2]

theorem send_request_json (args : Args) (env : Env) (jd : String)
    (hj : args.json = some jd) :
    send_request args env =
      if env.jsonValid then afterDispatch args (.postJson args.url jd) env
      else
        .panicked
          ("Requesting URL: " ++ args.url ++ "\nMethod: POST\nJSON: " ++ jd ++ "\n")
          ("Invalid JSON format: " ++ jd) := by
  simp [send_request, effectiveMethod, hj]

theorem send_request_nojson (args : Args) (env : Env) (hj : args.json = none) :
    send_request args env =
      if args.method = "POST" then
        afterDispatch args (.postForm args.url (formData args.data)) env
      else afterDispatch args (.get args.url) env := by
  simp [send_request, effectiveMethod, hj]

theorem afterDispatch_shape (args : Args) (req : Request) (env : Env) :
    (∃ st, env.transport = .ok st ∧ afterDispatch args req env = .ok req st) ∨
    (∃ k m, env.transport = .error k ∧ afterDispatch args req env = .errReported req m) := by
  unfold afterDispatch
  rcases h : env.transport with k | st
  · cases k
    · exact .inr ⟨_, _, rfl, rfl⟩
    · exact .inr ⟨_, _, rfl, rfl⟩
  · exact .inl ⟨st, rfl, rfl⟩


theorem mainRun_sent_dispatch (args : Args) (env : Env) (req : Request)
    (h1 : validProtocol args.url = true) (h2 : env.urlParseError = none)
    (h3 : send_request args env = afterDispatch args req env) :
    (mainRun args env).sent = some req := by
  have hmr := mainRun_send args env h1 h2
  rw [h3] at hmr
  rcases afterDispatch_shape args req env with ⟨st, _, had⟩ | ⟨k, m, _, had⟩
  · rw [had] at hmr
    replace hmr : mainRun args env =
        (match handle_response args st env.bodyText env.respJson with
          | .error _ => (⟨"", "", some req, .errExit⟩ : RunResult)
          | .ok (out, err) => ⟨out, err, some req, .exit0⟩) := hmr
    rcases hhr : handle_response args st env.bodyText env.respJson with e | p
    · rw [hhr] at hmr
      replace hmr : mainRun args env = ⟨"", "", some req, .errExit⟩ := hmr
      rw [hmr]
    · obtain ⟨out, err⟩ := p
      rw [hhr] at hmr
      replace hmr : mainRun args env = ⟨out, err, some req, .exit0⟩ := hmr
      rw [hmr]
  · rw [had] at hmr
    replace hmr : mainRun args env = ⟨"", m, some req, .exit0⟩ := hmr
    rw [hmr]

theorem dispatch_outcome (args : Args) (env : Env) (req : Request)
    (h1 : validProtocol args.url = true) (h2 : env.urlParseError = none)
    (h3 : send_request args env = afterDispatch args req env) :
    (mainRun args env).outcome = .exit0 ∨
      (∃ st, env.transport = .ok st ∧ isSuccess st = true ∧ env.bodyText = .error () ∧
        mainRun args env = ⟨"", "", some req, .errExit⟩) := by
  have hmr := mainRun_send args env h1 h2
  rw [h3] at hmr
  rcases afterDispatch_shape args req env with ⟨st, htr, had⟩ | ⟨k, m, _, had⟩
  · rw [had] at hmr
    replace hmr : mainRun args env =
        (match handle_response args st env.bodyText env.respJson with
          | .error _ => (⟨"", "", some req, .errExit⟩ : RunResult)
          | .ok (out, err) => ⟨out, err, some req, .exit0⟩) := hmr
    by_cases hs : isSuccess st = true
    · rcases hbt : env.bodyText with e | body
      · cases e
        have hhr : handle_response args st env.bodyText env.respJson = .error () := by
          simp [handle_response, hs, hbt]
        rw [hhr] at hmr
        replace hmr : mainRun args env = ⟨"", "", some req, .errExit⟩ := hmr
        exact .inr ⟨st, htr, hs, rfl, hmr⟩
      · have hhr : handle_response args st env.bodyText env.respJson =
            .ok (responseMeta args ++ renderBody body env.respJson, "") := by
          simp [handle_response, hs, hbt]
        rw [hhr] at hmr
        replace hmr : mainRun args env =
            ⟨responseMeta args ++ renderBody body env.respJson, "", some req, .exit0⟩ := hmr
        left
        rw [hmr]
    · have hs2 : isSuccess st = false := by
        revert hs; cases isSuccess st <;> simp
      have hhr : handle_response args st env.bodyText env.respJson =
          .ok ("",
            "Requesting URL: " ++ args.url ++ "\nMethod: " ++ args.method ++
              "\nError: Request failed with status code: " ++ toString st ++ "\n") := by
        simp [handle_response, hs2]
      rw [hhr] at hmr
      replace hmr : mainRun args env =
          ⟨"",
            "Requesting URL: " ++ args.url ++ "\nMethod: " ++ args.method ++
              "\nError: Request failed with status code: " ++ toString st ++ "\n",
            some req, .exit0⟩ := hmr
      left
      rw [hmr]
  · rw [had] at hmr
    replace hmr : mainRun args env = ⟨"", m, some req, .exit0⟩ := hmr
    left
    rw [hmr]

theorem mainRun_classify (args : Args) (env : Env) :
    (mainRun args env).outcome = .exit0 ∨
      (∃ jd, args.json = some jd ∧ env.jsonValid = false ∧
        validProtocol args.url = true ∧ env.urlParseError = none ∧
        mainRun args env =
          ⟨"", "Requesting URL: " ++ args.url ++ "\nMethod: POST\nJSON: " ++ jd ++ "\n",
            none, .panicked ("Invalid JSON format: " ++ jd)⟩) ∨
      (∃ req st, env.transport = .ok st ∧ isSuccess st = true ∧ env.bodyText = .error () ∧
        mainRun args env = ⟨"", "", some req, .errExit⟩) := by
  by_cases hvp : validProtocol args.url = true
  · rcases hup : env.urlParseError with _ | e
    · rcases hj : args.json with _ | jd
      · have hs := send_request_nojson args env hj
        by_cases hm : args.method = "POST"
        · rw [if_pos hm] at hs
          rcases dispatch_outcome args env _ hvp hup hs with h | ⟨st, a, b, c, d⟩
          · exact .inl h
          · exact .inr (.inr ⟨_, st, a, b, c, d⟩)
        · rw [if_neg hm] at hs
          rcases dispatch_outcome args env _ hvp hup hs with h | ⟨st, a, b, c, d⟩
          · exact .inl h
          · exact .inr (.inr ⟨_, st, a, b, c, d⟩)
      · have hs := send_request_json args env jd hj
        by_cases hv : env.jsonValid = true
        · rw [if_pos (by simp [hv])] at hs
          rcases dispatch_outcome args env _ hvp hup hs with h | ⟨st, a, b, c, d⟩
          · exact .inl h
          · exact .inr (.inr ⟨_, st, a, b, c, d⟩)
        · have hv2 : env.jsonValid = false := by
            revert hv; cases env.jsonValid <;> simp
          rw [if_neg (by simp [hv2])] at hs
          have hmr := mainRun_send args env hvp hup
          rw [hs] at hmr
          replace hmr : mainRun args env =
              ⟨"", "Requesting URL: " ++ args.url ++ "\nMethod: POST\nJSON: " ++ jd ++ "\n",
                none, .panicked ("Invalid JSON format: " ++ jd)⟩ := hmr
          exact .inr (.inl ⟨jd, rfl, hv2, hvp, rfl, hmr⟩)
    · left
      rw [mainRun_urlError args env e hvp hup]
  · left
    have hvp2 : validProtocol args.url = false := by
      revert hvp; cases validProtocol args.url <;> simp
    rw [mainRun_invalidProtocol args env hvp2]

/-- C1: for every invocation in which a `--json` argument is supplied, the
method used for dispatch is POST, regardless of any explicit `-X` method
flag (including an explicit `-X GET`): the resolved method is `"POST"` and
any request handed to the transport is a JSON POST to the given URL. -/
theorem c1_json_forces_post (args : Args) (env : Env) (h : args.json.isSome = true) :
    effectiveMethod args = "POST" ∧
      ∀ req, (mainRun args env).sent = some req →
        ∃ b, req = Request.postJson args.url b := by
  obtain ⟨jd, hj⟩ := Option.isSome_iff_exists.mp h
  refine ⟨by simp [effectiveMethod, h], fun req hreq => ?_⟩
  by_cases hvp : validProtocol args.url = true
  · rcases hup : env.urlParseError with _ | e
    · have hs := send_request_json args env jd hj
      by_cases hv : env.jsonValid = true
      · rw [if_pos (by simp [hv])] at hs
        have hsent := mainRun_sent_dispatch args env _ hvp hup hs
        rw [hsent] at hreq
        exact ⟨jd, (Option.some.inj hreq).symm⟩
      · have hv2 : env.jsonValid = false := by
          revert hv; cases env.jsonValid <;> simp
        rw [if_neg (by simp [hv2])] at hs
        have hmr := mainRun_send args env hvp hup
        rw [hs] at hmr
        replace hmr : mainRun args env =
            ⟨"", "Requesting URL: " ++ args.url ++ "\nMethod: POST\nJSON: " ++ jd ++ "\n",
              none, .panicked ("Invalid JSON format: " ++ jd)⟩ := hmr
        rw [hmr] at hreq
        simp at hreq
    · rw [mainRun_urlError args env e hvp hup] at hreq
      simp at hreq
  · have hvp2 : validProtocol args.url = false := by
      revert hvp; cases validProtocol args.url <;> simp
    rw [mainRun_invalidProtocol args env hvp2] at hreq
    simp at hreq

/-- Witness for C1 at a concrete invocation: `--json` with an explicit
`-X GET`. -/
theorem c1_json_forces_post_witness :
    (Args.mk "https://example.com" "GET" none (some "\x7b\"x\":1\x7d")).json.isSome = true ∧
      (effectiveMethod (Args.mk "https://example.com" "GET" none (some "\x7b\"x\":1\x7d")) =
          "POST" ∧
        ∀ req,
          (mainRun (Args.mk "https://example.com" "GET" none (some "\x7b\"x\":1\x7d"))
              (Env.mk none true (.ok 200) (.ok "pong") none)).sent = some req →
            ∃ b, req = Request.postJson "https://example.com" b) :=
  ⟨rfl, c1_json_forces_post _ _ rfl⟩

/-- C2: form-mode body encoding splits on `&`, splits each pair on the first
`=` only (values may contain `=`), silently drops pairs without `=`, and
lets the last occurrence of a duplicate key win. -/
theorem c2_form_encoding :
    formMap "a=1&b=2" = [("a", "1"), ("b", "2")] ∧
    formMap "a=1&bad&b=2" = [("a", "1"), ("b", "2")] ∧
    formMap "a=1&a=2" = [("a", "2")] ∧
    formMap "k=a=b" = [("k", "a=b")] ∧
    splitOnceEq "bad" = none ∧
    splitOnceEq "k=a=b" = some ("k", "a=b") := by
  decide

/-- C3: when the `--json` string is rejected by `serde_json`, the run prints
the URL, the method (POST) and the offending string to stderr and aborts by
panicking, with no request handed to the transport; moreover the panic is
the only abort path of the whole program: any panicking run has a `--json`
argument that failed validation. -/
theorem c3_invalid_json_aborts (args : Args) (env : Env) (jd : String)
    (hj : args.json = some jd) (hv : env.jsonValid = false)
    (hvp : validProtocol args.url = true) (hup : env.urlParseError = none) :
    mainRun args env =
      ⟨"", "Requesting URL: " ++ args.url ++ "\nMethod: POST\nJSON: " ++ jd ++ "\n",
        none, .panicked ("Invalid JSON format: " ++ jd)⟩ ∧
    (mainRun args env).sent = none ∧
    ∀ (a : Args) (e : Env) (m : String), (mainRun a e).outcome = .panicked m →
      a.json.isSome = true ∧ e.jsonValid = false := by
  have hs := send_request_json args env jd hj
  rw [if_neg (by simp [hv])] at hs
  have hmr := mainRun_send args env hvp hup
  rw [hs] at hmr
  replace hmr : mainRun args env =
      ⟨"", "Requesting URL: " ++ args.url ++ "\nMethod: POST\nJSON: " ++ jd ++ "\n",
        none, .panicked ("Invalid JSON format: " ++ jd)⟩ := hmr
  refine ⟨hmr, by rw [hmr], fun a e m hpan => ?_⟩
  rcases mainRun_classify a e with h0 | ⟨jd2, hj2, hv2, _, _, hmr2⟩ | ⟨req, st, _, _, _, hmr2⟩
  · rw [hpan] at h0
    simp at h0
  · exact ⟨by simp [hj2], hv2⟩
  · rw [hmr2] at hpan
    simp at hpan

/-- Witness for C3 at a concrete invocation with an invalid JSON string. -/
theorem c3_invalid_json_aborts_witness :
    (Args.mk "https://example.com" "GET" none (some "\x7bbad\x7d")).json = some "\x7bbad\x7d" ∧
    (Env.mk none false (.ok 200) (.ok "") none).jsonValid = false ∧
    validProtocol "https://example.com" = true ∧
    mainRun (Args.mk "https://example.com" "GET" none (some "\x7bbad\x7d"))
        (Env.mk none false (.ok 200) (.ok "") none) =
      ⟨"",
        "Requesting URL: " ++ "https://example.com" ++ "\nMethod: POST\nJSON: " ++
          "\x7bbad\x7d" ++ "\n",
        none, .panicked ("Invalid JSON format: " ++ "\x7bbad\x7d")⟩ :=
  ⟨rfl, rfl, rfl,
    (c3_invalid_json_aborts
      (Args.mk "https://example.com" "GET" none (some "\x7bbad\x7d"))
      (Env.mk none false (.ok 200) (.ok "") none) "\x7bbad\x7d" rfl rfl rfl rfl).1⟩

/-- C4: for a 2xx response, a body that `serde_json` parses is re-emitted
pretty-printed under the sorted-keys label, with every object of the parsed
`Value` (modelled as `Json.sortKeysDeep` of the raw document tree, the
`BTreeMap` canonicalisation `from_str` performs) in strictly sorted key
order; a body that does not parse is printed byte-for-byte unchanged under
the plain label. -/
theorem c4_response_rendering (args : Args) (st : Nat) (body : String) (j0 : Json)
    (h : isSuccess st = true) :
    handle_response args st (.ok body) (some (Json.sortKeysDeep j0)) =
      .ok (responseMeta args ++
        ("Response body (JSON with sorted keys):\n" ++
          (Json.sortKeysDeep j0).toStringPretty ++ "\n"),
        "") ∧
    (Json.sortKeysDeep j0).sortedObjsB = true ∧
    handle_response args st (.ok body) none =
      .ok (responseMeta args ++ ("Response body:\n" ++ body ++ "\n"), "") := by
  refine ⟨?_, sortedObjsB_sortKeysDeep j0, ?_⟩ <;> simp [handle_response, h, renderBody]

/-- Witness for C4 at a concrete 200 response, with the document
`(b:1, a:2)` whose keys come back sorted. -/
theorem c4_response_rendering_witness :
    isSuccess 200 = true ∧
    (handle_response (Args.mk "https://example.com" "GET" none none) 200 (.ok "plain")
        (some (Json.sortKeysDeep
          (Json.obj (JsonMembers.cons "b" (Json.num 1)
            (JsonMembers.cons "a" (Json.num 2) JsonMembers.nil))))) =
      .ok (responseMeta (Args.mk "https://example.com" "GET" none none) ++
        ("Response body (JSON with sorted keys):\n" ++
          (Json.sortKeysDeep
            (Json.obj (JsonMembers.cons "b" (Json.num 1)
              (JsonMembers.cons "a" (Json.num 2) JsonMembers.nil)))).toStringPretty ++
          "\n"),
        "") ∧
    (Json.sortKeysDeep
      (Json.obj (JsonMembers.cons "b" (Json.num 1)
        (JsonMembers.cons "a" (Json.num 2) JsonMembers.nil)))).sortedObjsB = true ∧
    handle_response (Args.mk "https://example.com" "GET" none none) 200 (.ok "plain") none =
      .ok (responseMeta (Args.mk "https://example.com" "GET" none none) ++
        ("Response body:\n" ++ "plain" ++ "\n"), "")) :=
  ⟨rfl, c4_response_rendering _ 200 "plain" _ rfl⟩

/-- C5 is refuted at a concrete input: with `--json` and the default
`-X GET`, the dispatched request is a JSON POST (the effective method is
POST), yet the rendered output shows `Method: GET` — the originally-typed
method — and does not echo the JSON payload. -/
theorem c5_display_counterexample :
    effectiveMethod (Args.mk "https://example.com" "GET" none (some "\x7b\"x\":1\x7d")) =
      "POST" ∧
    (mainRun (Args.mk "https://example.com" "GET" none (some "\x7b\"x\":1\x7d"))
        (Env.mk none true (.ok 200) (.ok "pong") none)).sent =
      some (Request.postJson "https://example.com" "\x7b\"x\":1\x7d") ∧
    (mainRun (Args.mk "https://example.com" "GET" none (some "\x7b\"x\":1\x7d"))
        (Env.mk none true (.ok 200) (.ok "pong") none)).stdout =
      "Requesting URL: https://example.com\nMethod: GET\nResponse body:\npong\n" :=
  ⟨rfl, rfl, rfl⟩

/-- C5 amended: display output shows the originally-typed `-X` method
string, not the effective method, and the POST payload echo happens exactly
when the typed method string equals `"POST"`: on a successful 2xx run the
stdout is the metadata block built from `args.method` followed by the body
rendering. -/
theorem c5_display_typed_method (args : Args) (env : Env) (st : Nat) (body : String)
    (hvp : validProtocol args.url = true) (hup : env.urlParseError = none)
    (htr : env.transport = .ok st) (hs : isSuccess st = true)
    (hbt : env.bodyText = .ok body)
    (hnp : args.json = none ∨ env.jsonValid = true) :
    (mainRun args env).stdout = responseMeta args ++ renderBody body env.respJson ∧
    responseMeta args =
      (if args.method = "POST" then print_post_request_info args
        else "Requesting URL: " ++ args.url ++ "\nMethod: " ++ args.method ++ "\n") := by
  have hex : ∃ req, send_request args env = afterDispatch args req env := by
    rcases hjj : args.json with _ | jd
    · have hs0 := send_request_nojson args env hjj
      by_cases hm : args.method = "POST"
      · rw [if_pos hm] at hs0; exact ⟨_, hs0⟩
      · rw [if_neg hm] at hs0; exact ⟨_, hs0⟩
    · have hs0 := send_request_json args env jd hjj
      rcases hnp with h0 | hv
      · rw [hjj] at h0; exact absurd h0 (by simp)
      · rw [if_pos (by simp [hv])] at hs0; exact ⟨_, hs0⟩
  obtain ⟨req, hs3⟩ := hex
  have hmr := mainRun_send args env hvp hup
  rw [hs3] at hmr
  rcases afterDispatch_shape args req env with ⟨st2, htr2, had⟩ | ⟨k, m, htr2, had⟩
  · rw [htr] at htr2
    obtain rfl : st = st2 := Except.ok.inj htr2
    rw [had] at hmr
    replace hmr : mainRun args env =
        (match handle_response args st env.bodyText env.respJson with
          | .error _ => (⟨"", "", some req, .errExit⟩ : RunResult)
          | .ok (out, err) => ⟨out, err, some req, .exit0⟩) := hmr
    have hhr : handle_response args st env.bodyText env.respJson =
        .ok (responseMeta args ++ renderBody body env.respJson, "") := by
      simp [handle_response, hs, hbt]
    rw [hhr] at hmr
    replace hmr : mainRun args env =
        ⟨responseMeta args ++ renderBody body env.respJson, "", some req, .exit0⟩ := hmr
    rw [hmr]
    exact ⟨rfl, rfl⟩
  · rw [htr] at htr2
    exact absurd htr2 (by simp)

/-- Witness for the amended C5 at a concrete successful GET run. -/
theorem c5_display_typed_method_witness :
    validProtocol "https://example.com" = true ∧
    isSuccess 200 = true ∧
    ((mainRun (Args.mk "https://example.com" "GET" none none)
        (Env.mk none true (.ok 200) (.ok "pong") none)).stdout =
      responseMeta (Args.mk "https://example.com" "GET" none none) ++
        renderBody "pong" none ∧
    responseMeta (Args.mk "https://example.com" "GET" none none) =
      (if (Args.mk "https://example.com" "GET" none none).method = "POST" then
        print_post_request_info (Args.mk "https://example.com" "GET" none none)
       else
        "Requesting URL: " ++ "https://example.com" ++ "\nMethod: " ++ "GET" ++ "\n")) :=
  ⟨rfl, rfl,
    c5_display_typed_method (Args.mk "https://example.com" "GET" none none)
      (Env.mk none true (.ok 200) (.ok "pong") none) 200 "pong"
      rfl rfl rfl rfl rfl (.inl rfl)⟩

/-- C6 is refuted at a concrete input: when reading the body of a 200
response fails, `main` returns `Err` (non-zero exit) even though the
`--json` argument is absent, so the invalid-JSON panic is not the only
non-zero termination. -/
theorem c6_exit_code_counterexample :
    (Args.mk "https://example.com" "GET" none none).json = none ∧
    (mainRun (Args.mk "https://example.com" "GET" none none)
        (Env.mk none true (.ok 200) (.error ()) none)).outcome = Outcome.errExit ∧
    Outcome.errExit ≠ Outcome.exit0 :=
  ⟨rfl, rfl, by decide⟩

/-- C6 amended: every run exits with status 0 except (a) the invalid
`--json` panic and (b) a failure while reading the body of a 2xx response,
which propagates `Err` out of `main` (non-zero exit). -/
theorem c6_exit_codes (args : Args) (env : Env) :
    (mainRun args env).outcome = .exit0 ∨
      (∃ jd, args.json = some jd ∧ env.jsonValid = false ∧
        (mainRun args env).outcome = .panicked ("Invalid JSON format: " ++ jd)) ∨
      (env.bodyText = .error () ∧ (mainRun args env).outcome = .errExit ∧
        ∃ st, env.transport = .ok st ∧ isSuccess st = true) := by
  rcases mainRun_classify args env with h | ⟨jd, a, b, _, _, hmr⟩ | ⟨req, st, a, b, c, hmr⟩
  · exact .inl h
  · exact .inr (.inl ⟨jd, a, b, by rw [hmr]⟩)
  · exact .inr (.inr ⟨c, by rw [hmr], st, a, b⟩)

/-- C7 is refuted at a concrete input: with `--json` supplied, the method
that would have been used for dispatch is POST, yet the InvalidProtocol
diagnostic prints the typed flag value `GET`. -/
theorem c7_invalid_protocol_counterexample :
    effectiveMethod (Args.mk "ftp://example.com" "GET" none (some "\x7b\"a\":1\x7d")) =
      "POST" ∧
    (mainRun (Args.mk "ftp://example.com" "GET" none (some "\x7b\"a\":1\x7d"))
        (Env.mk none true (.ok 200) (.ok "") none)).stderr =
      "Requesting URL: ftp://example.com\nMethod: GET\nError: The URL does not have a valid base protocol.\n" ∧
    (mainRun (Args.mk "ftp://example.com" "GET" none (some "\x7b\"a\":1\x7d"))
        (Env.mk none true (.ok 200) (.ok "") none)).sent = none ∧
    (mainRun (Args.mk "ftp://example.com" "GET" none (some "\x7b\"a\":1\x7d"))
        (Env.mk none true (.ok 200) (.ok "") none)).outcome = .exit0 :=
  ⟨rfl, rfl, rfl, rfl⟩

/-- C7 amended: for every URL lacking the `http://`/`https://` prefix, the
run prints the InvalidProtocol diagnostic containing the URL and the typed
`-X` method flag (which differs from the method that would have been used
whenever `--json` is present with a non-POST flag), hands nothing to the
transport, prints nothing to stdout, and exits with status 0. -/
theorem c7_invalid_protocol_reported (args : Args) (env : Env)
    (h : validProtocol args.url = false) :
    mainRun args env =
      ⟨"",
        "Requesting URL: " ++ args.url ++ "\nMethod: " ++ args.method ++
          "\nError: The URL does not have a valid base protocol.\n",
        none, .exit0⟩ :=
  mainRun_invalidProtocol args env h

/-- Witness for the amended C7 at the spec scenario `ftp://example.com`. -/
theorem c7_invalid_protocol_reported_witness :
    validProtocol "ftp://example.com" = false ∧
    mainRun (Args.mk "ftp://example.com" "GET" none none)
        (Env.mk none true (.ok 200) (.ok "") none) =
      ⟨"",
        "Requesting URL: " ++ "ftp://example.com" ++ "\nMethod: " ++ "GET" ++
          "\nError: The URL does not have a valid base protocol.\n",
        none, .exit0⟩ :=
  ⟨rfl,
    c7_invalid_protocol_reported (Args.mk "ftp://example.com" "GET" none none)
      (Env.mk none true (.ok 200) (.ok "") none) rfl⟩

/-- C8: every non-2xx response skips body rendering entirely — the output
does not depend on the body text or its parse result, stdout stays empty —
and the request metadata plus the literal numeric status code are printed
as an error. -/
theorem c8_non_success_status (args : Args) (st : Nat) (bt : Except Unit String)
    (rj : Option Json) (h : isSuccess st = false) :
    handle_response args st bt rj =
      .ok ("",
        "Requesting URL: " ++ args.url ++ "\nMethod: " ++ args.method ++
          "\nError: Request failed with status code: " ++ toString st ++ "\n") := by
  simp [handle_response, h]

/-- Witness for C8 at a concrete 404 response: the literal code `404` is
printed. -/
theorem c8_non_success_status_witness :
    isSuccess 404 = false ∧
    handle_response (Args.mk "https://example.com" "GET" none none) 404
        (.ok "ignored body") none =
      .ok ("",
        "Requesting URL: https://example.com\nMethod: GET\nError: Request failed with status code: 404\n") :=
  ⟨rfl, c8_non_success_status (Args.mk "https://example.com" "GET" none none) 404
    (.ok "ignored body") none rfl⟩

/-- C9 is refuted at a concrete input: the method flag is not
case-normalized — `-X post` resolves to `"post"`, not `"POST"`, and the
dispatcher consequently issues a GET request. -/
theorem c9_no_case_normalization_counterexample :
    effectiveMethod (Args.mk "https://example.com" "post" none none) = "post" ∧
    "post" ≠ "POST" ∧
    (mainRun (Args.mk "https://example.com" "post" none none)
        (Env.mk none true (.ok 200) (.ok "") none)).sent =
      some (Request.get "https://example.com") :=
  ⟨rfl, by decide, rfl⟩

/-- C9 amended: without `--json` the effective method is the explicit `-X`
flag value exactly as typed (no case normalization), and clap supplies the
default `"GET"` when the flag is unspecified. -/
theorem c9_method_passthrough (args : Args) (hj : args.json = none) :
    effectiveMethod args = args.method ∧ clapMethod none = "GET" ∧
      ∀ m : String, clapMethod (some m) = m := by
  refine ⟨by simp [effectiveMethod, hj], rfl, fun m => rfl⟩

/-- Witness for the amended C9: `-X post` stays `"post"`. -/
theorem c9_method_passthrough_witness :
    (Args.mk "https://example.com" "post" none none).json = none ∧
    (effectiveMethod (Args.mk "https://example.com" "post" none none) =
      (Args.mk "https://example.com" "post" none none).method ∧
      clapMethod none = "GET" ∧ ∀ m : String, clapMethod (some m) = m) :=
  ⟨rfl, c9_method_passthrough _ rfl⟩

/-- C10: for every invocation without `--json` whose `-X` string is
anything other than exactly `"POST"`, any request handed to the transport
is a plain bodyless GET to the given URL. -/
theorem c10_non_post_dispatches_get (args : Args) (env : Env)
    (hj : args.json = none) (hm : args.method ≠ "POST") :
    ∀ req, (mainRun args env).sent = some req → req = Request.get args.url := by
  intro req hreq
  by_cases hvp : validProtocol args.url = true
  · rcases hup : env.urlParseError with _ | e
    · have hs := send_request_nojson args env hj
      rw [if_neg hm] at hs
      have hsent := mainRun_sent_dispatch args env _ hvp hup hs
      rw [hsent] at hreq
      exact (Option.some.inj hreq).symm
    · rw [mainRun_urlError args env e hvp hup] at hreq
      simp at hreq
  · have hvp2 : validProtocol args.url = false := by
      revert hvp; cases validProtocol args.url <;> simp
    rw [mainRun_invalidProtocol args env hvp2] at hreq
    simp at hreq

/-- Witness for C10 at a concrete `-X put` invocation. -/
theorem c10_non_post_dispatches_get_witness :
    (Args.mk "https://example.com" "put" none none).json = none ∧
    (Args.mk "https://example.com" "put" none none).method ≠ "POST" ∧
    ∀ req,
      (mainRun (Args.mk "https://example.com" "put" none none)
          (Env.mk none true (.ok 200) (.ok "") none)).sent = some req →
        req = Request.get "https://example.com" :=
  ⟨rfl, by decide,
    c10_non_post_dispatches_get (Args.mk "https://example.com" "put" none none)
      (Env.mk none true (.ok 200) (.ok "") none) rfl (by decide)⟩
